import Mathlib

/-!
# Verification of the RouterOS chat-bot protocol engine

Shallow embedding of the repository's protocol core:

* `src/core/api_protocol.py` — wire codec (`encode_length`, `decode_length`,
  `encode_word`, `build_sentence`, `decode_sentence`, `parse_response`,
  `md5_challenge_response`);
* `src/core/router_client.py` — the multiplexed engine (`command`, `stream`,
  `_receiver_loop`'s exit path, `_login_ros6`'s sentences);
* `src/core/router_manager.py` — the lifecycle manager (`add_router`,
  `reconnect_all`).

Bytes are modelled as `Nat` (each value `< 256` where produced by the
encoders).  Python strings are modelled as `List Char`; the words travelling
through the byte codec are modelled as their UTF-8 byte sequences
(`List Nat`), which is exactly what `str.encode("utf-8")` feeds into
`build_sentence`.  Python code that raises is modelled with `Option` /
`Except`: `DecErr.bufferError` is the `BufferError` raised for a word whose
claimed length extends past the buffer, and `DecErr.hardError` covers the
`IndexError` / `struct.error` raised on truncated length prefixes.
Bitwise operations of the source are translated to the equivalent
divide/modulo arithmetic on `Nat` (the or-ed marker bits never overlap the
payload bits, so `x | marker = marker + x`, and the decode masks select
contiguous low bits, so `x & (2^k - 1) = x % 2^k`); each site notes the
source expression it translates.
-/

/-- Decoder failure modes of `api_protocol.py`:
`bufferError` models the `BufferError("Incomplete sentence data")` raised by
`decode_sentence` (recoverable: the caller buffers more bytes);
`hardError` models `IndexError` / `struct.error` escaping `decode_length`
(not caught anywhere in the repository). -/
inductive DecErr where
  | bufferError
  | hardError
deriving DecidableEq, Repr

instance {ε α : Type} [DecidableEq ε] [DecidableEq α] :
    DecidableEq (Except ε α)
  | .ok a, .ok b =>
    if h : a = b then .isTrue (by rw [h]) else .isFalse (by simp [h])
  | .ok _, .error _ => .isFalse (by simp)
  | .error _, .ok _ => .isFalse (by simp)
  | .error e, .error f =>
    if h : e = f then .isTrue (by rw [h]) else .isFalse (by simp [h])

/-- The `api_protocol.encode_length` (src/core/api_protocol.py lines 24-35).
Returns `none` for `length ≥ 2^32`, where `struct.pack(">I", length)`
raises.  The source's `length | 0x8000` etc. are written as additions
(the payload is below the marker bits) and `struct.pack(">H"/">I")` as the
explicit big-endian byte decomposition. -/
def encode_length (length : Nat) : Option (List Nat) :=
  if length < 0x80 then
    some [length]
  else if length < 0x4000 then
    -- struct.pack(">H", length | 0x8000)
    some [(0x8000 + length) / 256, (0x8000 + length) % 256]
  else if length < 0x200000 then
    -- struct.pack(">I", length | 0xC00000)[1:], i.e. the low three bytes
    some [(0xC00000 + length) / 65536,
          (0xC00000 + length) / 256 % 256,
          (0xC00000 + length) % 256]
  else if length < 0x10000000 then
    -- struct.pack(">I", length | 0xE0000000)
    some [(0xE0000000 + length) / 16777216,
          (0xE0000000 + length) / 65536 % 256,
          (0xE0000000 + length) / 256 % 256,
          (0xE0000000 + length) % 256]
  else if length < 0x100000000 then
    -- b"\xF0" + struct.pack(">I", length)
    some [0xF0, length / 16777216, length / 65536 % 256,
          length / 256 % 256, length % 256]
  else
    none

/-- The `b < 0xC0` arm of `decode_length`: `struct.unpack(">H",
data[offset:offset+2])[0] & 0x3FFF`; a short slice raises `struct.error`. -/
def decode_len2 (b : Nat) : List Nat → Except DecErr (Nat × Nat)
  | b1 :: _ => .ok ((b * 256 + b1) % 0x4000, 2)
  | _ => .error .hardError

/-- The `b < 0xE0` arm of `decode_length`: three bytes padded to four,
`unpack(">I") & 0x1FFFFF`. -/
def decode_len3 (b : Nat) : List Nat → Except DecErr (Nat × Nat)
  | b1 :: b2 :: _ => .ok ((b * 65536 + b1 * 256 + b2) % 0x200000, 3)
  | _ => .error .hardError

/-- The `b < 0xF0` arm of `decode_length`:
`unpack(">I", data[offset:offset+4]) & 0x0FFFFFFF`. -/
def decode_len4 (b : Nat) : List Nat → Except DecErr (Nat × Nat)
  | b1 :: b2 :: b3 :: _ =>
    .ok ((b * 16777216 + b1 * 65536 + b2 * 256 + b3) % 0x10000000, 4)
  | _ => .error .hardError

/-- The `0xF0` marker arm of `decode_length`:
`unpack(">I", data[offset+1:offset+5])`, the marker byte itself ignored. -/
def decode_len5 : List Nat → Except DecErr (Nat × Nat)
  | b1 :: b2 :: b3 :: b4 :: _ =>
    .ok (b1 * 16777216 + b2 * 65536 + b3 * 256 + b4, 5)
  | _ => .error .hardError

/-- The `decode_length`'s action on the suffix `data[offset:]`; the second
component is the number of bytes consumed. -/
def decode_length_from : List Nat → Except DecErr (Nat × Nat)
  | [] => .error .hardError
  | b :: tail =>
    if b < 0x80 then .ok (b, 1)
    else if b < 0xC0 then decode_len2 b tail
    else if b < 0xE0 then decode_len3 b tail
    else if b < 0xF0 then decode_len4 b tail
    else decode_len5 tail

/-- The `api_protocol.decode_length` (src/core/api_protocol.py lines 38-56).
`data[offset]` on an exhausted buffer and a short slice handed to
`struct.unpack` both surface as `DecErr.hardError`.  The masks
`& 0x3FFF` / `& 0x1FFFFF` / `& 0x0FFFFFFF` are written as the equal
`% 0x4000` / `% 0x200000` / `% 0x10000000`; the source's returned offsets
`offset + 1 … offset + 5` are `offset +` the consumed-byte count. -/
def decode_length (data : List Nat) (offset : Nat) :
    Except DecErr (Nat × Nat) :=
  (decode_length_from (data.drop offset)).map (fun p => (p.1, offset + p.2))

/-- The `api_protocol.encode_word` (lines 61-63), on the word's UTF-8 bytes. -/
def encode_word (word : List Nat) : Option (List Nat) :=
  (encode_length word.length).map (· ++ word)

/-- The `api_protocol.build_sentence` (lines 66-67): concatenated encoded words
plus the single `0x00` terminator. -/
def build_sentence (words : List (List Nat)) : Option (List Nat) :=
  match words with
  | [] => some [0]
  | w :: ws =>
    match encode_word w, build_sentence ws with
    | some ew, some rest => some (ew ++ rest)
    | _, _ => none

/-- Every successful length decode consumes between one and five bytes. -/
theorem decode_length_from_consumed {bytes : List Nat} {len c : Nat}
    (h : decode_length_from bytes = .ok (len, c)) : 1 ≤ c ∧ c ≤ 5 := by
  match bytes with
  | [] => simp [decode_length_from] at h
  | b :: tail =>
    simp only [decode_length_from] at h
    split_ifs at h
    · cases h; omega
    · match tail with
      | [] => simp [decode_len2] at h
      | b1 :: t => simp [decode_len2] at h; omega
    · match tail with
      | [] | [_] => simp [decode_len3] at h
      | b1 :: b2 :: t => simp [decode_len3] at h; omega
    · match tail with
      | [] | [_] | [_, _] => simp [decode_len4] at h
      | b1 :: b2 :: b3 :: t => simp [decode_len4] at h; omega
    · match tail with
      | [] | [_] | [_, _] | [_, _, _] => simp [decode_len5] at h
      | b1 :: b2 :: b3 :: b4 :: t => simp [decode_len5] at h; omega

/-- In every `.ok` branch `decode_length` advances the offset. -/
theorem decode_length_ok_lt {data : List Nat} {offset len off2 : Nat}
    (h : decode_length data offset = .ok (len, off2)) : offset < off2 := by
  unfold decode_length at h
  cases hf : decode_length_from (data.drop offset) with
  | error e => rw [hf] at h; simp [Except.map] at h
  | ok p =>
    rw [hf] at h
    simp only [Except.map, Except.ok.injEq] at h
    obtain ⟨h1, h2⟩ := Prod.mk.injEq .. ▸ (by cases h; exact ⟨rfl, rfl⟩ : p.1 = len ∧ offset + p.2 = off2)
    have := @decode_length_from_consumed (data.drop offset) p.1 p.2 (by rw [hf])
    omega

/-- The `api_protocol.decode_sentence` (lines 72-90), the `while` loop.
`acc` is the `words` list being built; the loop runs while
`offset < len(data)`; a zero length ends the sentence; a word length
extending past the buffer raises `BufferError`.  The recursion is driven
by a fuel counter: every iteration advances `offset` by at least one byte
(`decode_length_ok_lt`), so the `data.length - offset + 1` fuel supplied
by `decode_sentence` is never exhausted and the `fuel = 0` branch is
unreachable on every run the theorems below talk about. -/
def decode_sentence_go (data : List Nat) :
    Nat → Nat → List (List Nat) → Except DecErr (List (List Nat) × Nat)
  | 0, _, _ => .error .hardError
  | fuel + 1, offset, acc =>
    if offset < data.length then
      match decode_length data offset with
      | .error e => .error e
      | .ok (len, off2) =>
        if len = 0 then
          .ok (acc, off2)
        else if data.length < off2 + len then
          .error .bufferError
        else
          decode_sentence_go data fuel (off2 + len)
            (acc ++ [(data.drop off2).take len])
    else
      .ok (acc, offset)

/-- The `api_protocol.decode_sentence` entry point (default `offset = 0` at the
call sites the claims cover). -/
def decode_sentence (data : List Nat) (offset : Nat) :
    Except DecErr (List (List Nat) × Nat) :=
  decode_sentence_go data (data.length - offset + 1) offset []

/-- Decoding an encoded length from the front of any buffer recovers the
length and consumes exactly the encoded bytes. -/
theorem decode_length_from_enc {n : Nat} {enc : List Nat}
    (h : encode_length n = some enc) (rest : List Nat) :
    decode_length_from (enc ++ rest) = .ok (n, enc.length) := by
  unfold encode_length at h
  split_ifs at h with h1 h2 h3 h4 h5
  · injection h with h'; subst h'
    simp only [List.cons_append, List.nil_append, decode_length_from,
      List.length_cons, List.length_nil]
    rw [if_pos h1]
  · injection h with h'; subst h'
    simp only [List.cons_append, List.nil_append, decode_length_from,
      List.length_cons, List.length_nil]
    rw [if_neg (by omega), if_pos (by omega)]
    simp only [decode_len2, Except.ok.injEq, Prod.mk.injEq, and_true]
    omega
  · injection h with h'; subst h'
    simp only [List.cons_append, List.nil_append, decode_length_from,
      List.length_cons, List.length_nil]
    rw [if_neg (by omega), if_neg (by omega), if_pos (by omega)]
    simp only [decode_len3, Except.ok.injEq, Prod.mk.injEq, and_true]
    omega
  · injection h with h'; subst h'
    simp only [List.cons_append, List.nil_append, decode_length_from,
      List.length_cons, List.length_nil]
    rw [if_neg (by omega), if_neg (by omega), if_neg (by omega),
      if_pos (by omega)]
    simp only [decode_len4, Except.ok.injEq, Prod.mk.injEq, and_true]
    omega
  · injection h with h'; subst h'
    simp only [List.cons_append, List.nil_append, decode_length_from,
      List.length_cons, List.length_nil]
    rw [if_neg (by omega), if_neg (by omega), if_neg (by omega),
      if_neg (by omega)]
    simp only [decode_len5, Except.ok.injEq, Prod.mk.injEq, and_true]
    omega

/-- Positional form: decoding at the position just past `pre` reads the
encoded length located there. -/
theorem decode_length_at {n : Nat} {enc : List Nat}
    (h : encode_length n = some enc) (pre rest : List Nat) :
    decode_length (pre ++ (enc ++ rest)) pre.length =
      .ok (n, pre.length + enc.length) := by
  unfold decode_length
  rw [List.drop_left, decode_length_from_enc h]
  rfl

/-- C2.  For every `n < 2^32` (the first four classes cover `n < 2^28`),
`decode_length (encode_length n) 0` returns `(n, k)` with `k` the byte
width of the encoding, and the encoding matches the documented class
boundaries: one byte (the value itself) below `0x80`; two bytes with top
bits `10` below `0x4000`; three bytes with top bits `110` below
`0x200000`; four bytes with top bits `1110` below `0x10000000`; else five
bytes led by the `0xF0` marker.  In particular `encode_length 127 = [0x7F]`,
`encode_length 128` is two bytes with top bits `10`, and
`encode_length 16384` is three bytes with top bits `110`. -/
theorem C2_length_roundtrip (n : Nat) (h : n < 0x100000000) :
    ∃ enc, encode_length n = some enc ∧
      decode_length enc 0 = .ok (n, enc.length) ∧
      (n < 0x80 → enc = [n]) ∧
      (0x80 ≤ n → n < 0x4000 →
        enc.length = 2 ∧ ∃ b0, enc.head? = some b0 ∧ 0x80 ≤ b0 ∧ b0 < 0xC0) ∧
      (0x4000 ≤ n → n < 0x200000 →
        enc.length = 3 ∧ ∃ b0, enc.head? = some b0 ∧ 0xC0 ≤ b0 ∧ b0 < 0xE0) ∧
      (0x200000 ≤ n → n < 0x10000000 →
        enc.length = 4 ∧ ∃ b0, enc.head? = some b0 ∧ 0xE0 ≤ b0 ∧ b0 < 0xF0) ∧
      (0x10000000 ≤ n → enc.length = 5 ∧ enc.head? = some 0xF0) := by
  have hde : ∀ enc, encode_length n = some enc →
      decode_length enc 0 = .ok (n, enc.length) := by
    intro enc he
    have := decode_length_at he [] []
    simpa using this
  unfold encode_length
  by_cases h1 : n < 0x80
  · rw [if_pos h1]
    refine ⟨[n], rfl, hde _ ?_, fun _ => rfl, ?_, ?_, ?_, ?_⟩ <;>
      first
        | (unfold encode_length; rw [if_pos h1])
        | (intros; exfalso; omega)
  · by_cases h2 : n < 0x4000
    · rw [if_neg h1, if_pos h2]
      refine ⟨_, rfl, hde _ ?_, ?_, ?_, ?_, ?_, ?_⟩
      · unfold encode_length; rw [if_neg h1, if_pos h2]
      · intro hc; omega
      · intro _ _
        exact ⟨rfl, _, rfl, by omega, by omega⟩
      all_goals intros; exfalso; omega
    · by_cases h3 : n < 0x200000
      · rw [if_neg h1, if_neg h2, if_pos h3]
        refine ⟨_, rfl, hde _ ?_, ?_, ?_, ?_, ?_, ?_⟩
        · unfold encode_length; rw [if_neg h1, if_neg h2, if_pos h3]
        · intro hc; omega
        · intros; exfalso; omega
        · intro _ _
          exact ⟨rfl, _, rfl, by omega, by omega⟩
        all_goals intros; exfalso; omega
      · by_cases h4 : n < 0x10000000
        · rw [if_neg h1, if_neg h2, if_neg h3, if_pos h4]
          refine ⟨_, rfl, hde _ ?_, ?_, ?_, ?_, ?_, ?_⟩
          · unfold encode_length
            rw [if_neg h1, if_neg h2, if_neg h3, if_pos h4]
          · intro hc; omega
          · intros; exfalso; omega
          · intros; exfalso; omega
          · intro _ _
            exact ⟨rfl, _, rfl, by omega, by omega⟩
          · intros; exfalso; omega
        · rw [if_neg h1, if_neg h2, if_neg h3, if_neg h4, if_pos h]
          refine ⟨_, rfl, hde _ ?_, ?_, ?_, ?_, ?_, ?_⟩
          · unfold encode_length
            rw [if_neg h1, if_neg h2, if_neg h3, if_neg h4, if_pos h]
          · intro hc; omega
          · intros; exfalso; omega
          · intros; exfalso; omega
          · intros; exfalso; omega
          · intro _; exact ⟨rfl, rfl⟩

/-- Witness for C2 at the class-3 boundary value `16384 = 0x4000`. -/
theorem C2_length_roundtrip_witness :
    (0x4000 : Nat) < 0x100000000 ∧
      ∃ enc, encode_length 0x4000 = some enc ∧
        decode_length enc 0 = .ok (0x4000, enc.length) ∧
        (0x4000 < 0x80 → enc = [0x4000]) ∧
        (0x80 ≤ 0x4000 → (0x4000 : Nat) < 0x4000 →
          enc.length = 2 ∧
            ∃ b0, enc.head? = some b0 ∧ 0x80 ≤ b0 ∧ b0 < 0xC0) ∧
        ((0x4000 : Nat) ≤ 0x4000 → (0x4000 : Nat) < 0x200000 →
          enc.length = 3 ∧
            ∃ b0, enc.head? = some b0 ∧ 0xC0 ≤ b0 ∧ b0 < 0xE0) ∧
        ((0x200000 : Nat) ≤ 0x4000 → (0x4000 : Nat) < 0x10000000 →
          enc.length = 4 ∧
            ∃ b0, enc.head? = some b0 ∧ 0xE0 ≤ b0 ∧ b0 < 0xF0) ∧
        ((0x10000000 : Nat) ≤ 0x4000 →
          enc.length = 5 ∧ enc.head? = some 0xF0) :=
  ⟨by omega, C2_length_roundtrip 0x4000 (by omega)⟩

/-- A successful length encoding is nonempty. -/
theorem encode_length_pos {n : Nat} {enc : List Nat}
    (h : encode_length n = some enc) : 1 ≤ enc.length := by
  unfold encode_length at h
  split_ifs at h <;> (injection h with h'; subst h'; simp)

/-- A built sentence is nonempty (it ends in the zero terminator). -/
theorem build_sentence_pos {ws : List (List Nat)} {bs : List Nat}
    (h : build_sentence ws = some bs) : 1 ≤ bs.length := by
  match ws with
  | [] => unfold build_sentence at h; injection h with h'; subst h'; simp
  | w :: ws' =>
    unfold build_sentence at h
    cases hew : encode_word w with
    | none => rw [hew] at h; simp at h
    | some ew =>
      cases hrest : build_sentence ws' with
      | none => rw [hew, hrest] at h; simp at h
      | some rest =>
        rw [hew, hrest] at h
        injection h with h'
        subst h'
        have := @build_sentence_pos ws' rest hrest
        simp
        omega

/-- Decoding a built sentence from any position where it sits as the
suffix of the buffer recovers every (nonempty) word in order and stops
just past the terminator. -/
theorem decode_sentence_go_build (ws : List (List Nat)) :
    ∀ (hne : ∀ w ∈ ws, w ≠ []) (bs : List Nat),
      build_sentence ws = some bs →
      ∀ (data : List Nat) (offset : Nat) (acc : List (List Nat)) (fuel : Nat),
        data.drop offset = bs → bs.length ≤ fuel →
        decode_sentence_go data fuel offset acc =
          .ok (acc ++ ws, offset + bs.length) := by
  induction ws with
  | nil =>
    intro _ bs hb data offset acc fuel hdrop hfuel
    unfold build_sentence at hb
    injection hb with h'; subst h'
    simp only [List.length_cons, List.length_nil] at hfuel
    have hlen := List.length_drop offset data
    rw [hdrop] at hlen
    simp only [List.length_cons, List.length_nil] at hlen
    obtain ⟨f, rfl⟩ : ∃ f, fuel = f + 1 := ⟨fuel - 1, by omega⟩
    simp only [decode_sentence_go]
    rw [if_pos (by omega)]
    have hdl : decode_length data offset = .ok (0, offset + 1) := by
      unfold decode_length
      rw [hdrop]
      rfl
    rw [hdl]
    simp
  | cons w ws' ih =>
    intro hne bs hb data offset acc fuel hdrop hfuel
    unfold build_sentence at hb
    cases hew : encode_word w with
    | none => rw [hew] at hb; simp at hb
    | some ew =>
      cases hrest : build_sentence ws' with
      | none => rw [hew, hrest] at hb; simp at hb
      | some rest =>
        rw [hew, hrest] at hb
        injection hb with h'; subst h'
        unfold encode_word at hew
        cases henc : encode_length w.length with
        | none => rw [henc] at hew; simp at hew
        | some enc =>
          rw [henc] at hew
          simp only [Option.map, Option.some.injEq] at hew
          subst hew
          have henclen : 1 ≤ enc.length := encode_length_pos henc
          have hrestlen : 1 ≤ rest.length := build_sentence_pos hrest
          have hwne : w ≠ [] := hne w (by simp)
          have hwlen : 1 ≤ w.length := List.length_pos.mpr hwne
          have hbs : ((enc ++ w) ++ rest).length =
              enc.length + w.length + rest.length := by
            simp only [List.length_append]
          have hdlen := List.length_drop offset data
          rw [hdrop] at hdlen
          have hoff : offset + (enc.length + w.length + rest.length) =
              data.length := by
            by_cases hod : offset ≤ data.length
            · omega
            · exfalso
              have hnil : data.drop offset = [] :=
                List.drop_eq_nil_of_le (by omega)
              rw [hdrop] at hnil
              have := congrArg List.length hnil
              simp at this
              omega
          obtain ⟨f, rfl⟩ : ∃ f, fuel = f + 1 := ⟨fuel - 1, by omega⟩
          simp only [decode_sentence_go]
          rw [if_pos (by omega)]
          have hassoc : (enc ++ w) ++ rest = enc ++ (w ++ rest) :=
            List.append_assoc enc w rest
          have hdl : decode_length data offset =
              .ok (w.length, offset + enc.length) := by
            unfold decode_length
            rw [hdrop, hassoc, decode_length_from_enc henc]
            rfl
          rw [hdl]
          dsimp only
          rw [if_neg (by omega), if_neg (by omega)]
          have hdrop2 : data.drop (offset + enc.length) = w ++ rest := by
            rw [← List.drop_drop, hdrop, hassoc, List.drop_left]
          have hword : (data.drop (offset + enc.length)).take w.length = w := by
            rw [hdrop2, List.take_left]
          rw [hword]
          have hdrop3 : data.drop (offset + enc.length + w.length) = rest := by
            rw [← List.drop_drop, hdrop2]
            exact List.drop_left w rest
          have hrec := ih (fun x hx => hne x (by simp [hx])) rest hrest data
            (offset + enc.length + w.length) (acc ++ [w]) f hdrop3 (by omega)
          rw [hrec]
          simp only [Except.ok.injEq, Prod.mk.injEq]
          constructor
          · simp
          · simp only [List.length_append]
            omega

/-- C3, counterexample.  The claim quantifies over *every* list of UTF-8
strings, but the empty string encodes to the single byte `0x00`, which is
indistinguishable from the sentence terminator: for `W = [""]` the built
sentence is `[0x00, 0x00]` and decoding stops at the first byte, returning
`([], 1)` instead of the claimed `([""], 2)`. -/
theorem C3_roundtrip_counterexample :
    build_sentence [[]] = some [0, 0] ∧
    decode_sentence [0, 0] 0 = .ok ([], 1) ∧
    decode_sentence [0, 0] 0 ≠ .ok ([[]], 2) :=
  ⟨rfl, rfl, by decide⟩

/-- C3, amended.  For every list `W` of *nonempty* words (UTF-8 byte
sequences) that `build_sentence` accepts (each word shorter than `2^32`,
where the length encoder is defined), `decode_sentence (build_sentence W) 0`
returns exactly `(W, len (build_sentence W))`: all words in order, and the
consumed bytes include the zero terminator. -/
theorem C3_sentence_roundtrip (ws : List (List Nat)) (bs : List Nat)
    (hne : ∀ w ∈ ws, w ≠ []) (hb : build_sentence ws = some bs) :
    decode_sentence bs 0 = .ok (ws, bs.length) := by
  unfold decode_sentence
  have := decode_sentence_go_build ws hne bs hb bs 0 [] (bs.length - 0 + 1)
    (by simp) (by omega)
  simpa using this

/-- Witness for C3's amended round trip on the single word "hi"
(UTF-8 bytes `[104, 105]`). -/
theorem C3_sentence_roundtrip_witness :
    (∀ w ∈ [[104, 105]], w ≠ ([] : List Nat)) ∧
    build_sentence [[104, 105]] = some [2, 104, 105, 0] ∧
    decode_sentence [2, 104, 105, 0] 0 = .ok ([[104, 105]], 4) :=
  ⟨by decide, rfl,
    C3_sentence_roundtrip [[104, 105]] [2, 104, 105, 0] (by decide) rfl⟩

/-- C4, code-bug evidence.  The claim (and §4.1/§7 of the spec) requires
every strict prefix of an encoded sentence to be signalled as the
recoverable "need more bytes" condition, never a hard parse error and
never a decoded result.  The code violates both halves:
(1) a prefix that ends exactly at a word boundary before the terminator is
returned as a completed decode — `[0x01, 0x61]`, a strict prefix of the
sentence for `["a"]`, decodes to `(["a"], 2)`, and `[1, 97, 1, 98]`, a
strict prefix of the sentence for `["a", "b"]`, decodes to two words, so
the receiver's `_dispatch_buf` mis-frames a sentence split at a word
boundary into several responses;
(2) a prefix that truncates a multi-byte length marker raises the hard
`struct.error` — `[0x80]` is a strict prefix of `encode_length 128 =
[0x80, 0x80]`, and `decode_length` fails hard on it, which
`_dispatch_buf` (catching only `BufferError`) does not survive. -/
theorem C4_incremental_decode_divergence :
    build_sentence [[97]] = some [1, 97, 0] ∧
    decode_sentence [1, 97] 0 = .ok ([[97]], 2) ∧
    decode_sentence [1, 97, 0] 0 = .ok ([[97]], 3) ∧
    build_sentence [[97], [98]] = some [1, 97, 1, 98, 0] ∧
    decode_sentence [1, 97, 1, 98] 0 = .ok ([[97], [98]], 4) ∧
    encode_length 128 = some [0x80, 0x80] ∧
    decode_length [0x80] 0 = .error .hardError :=
  ⟨rfl, rfl, rfl, rfl, rfl, rfl, rfl⟩

/-- Attribute values in a parsed response: an `=key=value` word stores the
value string, a `?query` word stores Python's `True`. -/
inductive AttrVal where
  | str (v : List Char)
  | flag
deriving DecidableEq, Repr

/-- The `.tag=` payload: `int(word[5:])` when it parses as an integer,
else the raw string (the `except ValueError` branch, lines 109-112). -/
inductive TagVal where
  | int (n : Int)
  | str (s : List Char)
deriving DecidableEq, Repr

/-- The structured dict returned by `parse_response` (and pushed into the
pending queues by the receiver loop): keys `"type"`, `"tag"`, `"attrs"`. -/
structure ParsedResponse where
  type : Option (List Char)
  tag : Option TagVal
  attrs : List (List Char × AttrVal)
deriving DecidableEq, Repr

/-- Python `dict` assignment `m[k] = v` on an insertion-ordered
association list: overwrite in place when the key exists, else append. -/
def dictInsert {α β : Type} [DecidableEq α] (m : List (α × β)) (k : α)
    (v : β) : List (α × β) :=
  if m.any (fun p => p.1 == k) then
    m.map (fun p => if p.1 == k then (k, v) else p)
  else
    m ++ [(k, v)]

/-- Python `dict` lookup `m.get(k)`. -/
def dictGet {α β : Type} [DecidableEq α] (m : List (α × β)) (k : α) :
    Option β :=
  (m.find? (fun p => p.1 == k)).map (fun p => p.2)

/-- Decimal-digit accumulator for `pyInt`. -/
def pyDigitsGo (acc : Nat) : List Char → Option Nat
  | [] => some acc
  | c :: cs =>
    if c.isDigit then pyDigitsGo (acc * 10 + (c.toNat - 48)) cs else none

/-- One or more decimal digits, as a number. -/
def pyDigits : List Char → Option Nat
  | [] => none
  | l => pyDigitsGo 0 l

/-- Python `int(s)` on the forms the protocol exercises: an optional sign
followed by decimal digits.  Anything else returns `none`, modelling the
`ValueError` (Python's tolerance for surrounding whitespace and
underscore separators is not exercised by `.tag=` words and not
modelled). -/
def pyInt (s : List Char) : Option Int :=
  match s with
  | '-' :: ds => (pyDigits ds).map (fun n => -(n : Int))
  | '+' :: ds => (pyDigits ds).map (fun n => (n : Int))
  | ds => (pyDigits ds).map (fun n => (n : Int))

/-- The `word.startswith("!")` (line 106). -/
def isBang (w : List Char) : Bool := w.take 1 == ['!']

/-- The `word.startswith(".tag=")` (line 108). -/
def isTag (w : List Char) : Bool := w.take 5 == ['.', 't', 'a', 'g', '=']

/-- The `word.startswith("=")` (line 113). -/
def isEqStart (w : List Char) : Bool := w.take 1 == ['=']

/-- The `word.startswith("?")` (line 119). -/
def isQStart (w : List Char) : Bool := w.take 1 == ['?']

/-- The `word.index("=", 1)`: position of the first `=` at index ≥ 1; `none`
models the `ValueError` when there is none. -/
def eqIndexFrom1 (w : List Char) : Option Nat :=
  (List.findIdx? (fun c => c == '=') (w.drop 1)).map (· + 1)

/-- Lines 109-112: `int(word[5:])` with the string fallback. -/
def tagValOf (w : List Char) : TagVal :=
  match pyInt (w.drop 5) with
  | some n => TagVal.int n
  | none => TagVal.str (w.drop 5)

/-- The `for word in words` body of `api_protocol.parse_response`
(lines 105-121).  Returns `none` where the body raises: an `=`-word with
no second `=` makes `word.index("=", 1)` raise `ValueError`. -/
def parse_word (r : ParsedResponse) (w : List Char) : Option ParsedResponse :=
  if isBang w then
    some { r with type := some w }
  else if isTag w then
    some { r with tag := some (tagValOf w) }
  else if isEqStart w then
    match eqIndexFrom1 w with
    | none => none
    | some i =>
      some { r with
        attrs := dictInsert r.attrs ((w.take i).drop 1)
          (AttrVal.str (w.drop (i + 1))) }
  else if isQStart w then
    some { r with attrs := dictInsert r.attrs w AttrVal.flag }
  else
    some r

/-- The word loop of `parse_response`. -/
def parse_response_go (r : ParsedResponse) :
    List (List Char) → Option ParsedResponse
  | [] => some r
  | w :: ws =>
    match parse_word r w with
    | none => none
    | some r2 => parse_response_go r2 ws

/-- The `api_protocol.parse_response` (lines 93-122), starting from
`{"type": None, "tag": None, "attrs": {}}`. -/
def parse_response (words : List (List Char)) : Option ParsedResponse :=
  parse_response_go { type := none, tag := none, attrs := [] } words

theorem dictGet_cons {α β : Type} [DecidableEq α]
    (p : α × β) (m : List (α × β)) (k : α) :
    dictGet (p :: m) k = if p.1 == k then some p.2 else dictGet m k := by
  cases h : (p.1 == k) <;> simp [dictGet, List.find?_cons, h]

/-- Overwriting key `k1` in place leaves lookups at other keys alone. -/
theorem dictGet_map_other {α β : Type} [DecidableEq α]
    (m : List (α × β)) (k1 k2 : α) (v : β) (hne : (k1 == k2) = false) :
    dictGet (m.map (fun p => if p.1 == k1 then (k1, v) else p)) k2 =
      dictGet m k2 := by
  induction m with
  | nil => rfl
  | cons p m' ih =>
    simp only [List.map_cons]
    cases hp : (p.1 == k1) with
    | true =>
      have hp1 : p.1 = k1 := by simpa using hp
      rw [if_pos rfl, dictGet_cons, dictGet_cons, hne, ih, hp1, hne]
      simp
    | false =>
      rw [if_neg (by simp), dictGet_cons, dictGet_cons, ih]

/-- Overwriting key `k1` in place makes lookup at `k1` yield the new
value, provided `k1` was present. -/
theorem dictGet_map_hit {α β : Type} [DecidableEq α]
    (m : List (α × β)) (k1 : α) (v : β)
    (ha : m.any (fun p => p.1 == k1) = true) :
    dictGet (m.map (fun p => if p.1 == k1 then (k1, v) else p)) k1 =
      some v := by
  induction m with
  | nil => simp at ha
  | cons p m' ih =>
    simp only [List.map_cons]
    cases hp : (p.1 == k1) with
    | true =>
      rw [if_pos rfl, dictGet_cons]
      simp
    | false =>
      rw [if_neg (by simp), dictGet_cons, hp]
      simp only [Bool.false_eq_true, if_false]
      apply ih
      simp only [List.any_cons, hp, Bool.false_or] at ha
      exact ha

/-- Python `m[k1] = v` then `m.get(k2)`: the new value at `k1`, the old
lookup elsewhere. -/
theorem dictGet_dictInsert {α β : Type} [DecidableEq α]
    (m : List (α × β)) (k1 k2 : α) (v : β) :
    dictGet (dictInsert m k1 v) k2 =
      if k1 == k2 then some v else dictGet m k2 := by
  induction m with
  | nil =>
    simp only [dictInsert, List.any_nil, Bool.false_eq_true, if_false,
      List.nil_append]
    rw [dictGet_cons]
  | cons p m' ih =>
    cases hp : (p.1 == k1) with
    | true =>
      have hp1 : p.1 = k1 := by simpa using hp
      have hany : ((p :: m').any fun q => q.1 == k1) = true := by
        simp [List.any_cons, hp]
      simp only [dictInsert, hany, if_true, List.map_cons, hp, if_pos]
      rw [dictGet_cons]
      cases hk : (k1 == k2) with
      | true => simp
      | false =>
        simp only [Bool.false_eq_true, if_false]
        rw [dictGet_map_other _ _ _ _ hk, dictGet_cons, hp1, hk]
        simp
    | false =>
      cases ha : (m'.any fun q => q.1 == k1) with
      | true =>
        have hany : ((p :: m').any fun q => q.1 == k1) = true := by
          simp [List.any_cons, ha]
        simp only [dictInsert, hany, if_true, List.map_cons, hp]
        simp only [Bool.false_eq_true, if_false]
        rw [dictGet_cons, dictGet_cons]
        cases hk : (k1 == k2) with
        | true =>
          have hk1 : k1 = k2 := by simpa using hk
          subst hk1
          rw [hp]
          simp only [Bool.false_eq_true, if_false, if_true]
          exact dictGet_map_hit _ _ _ ha
        | false =>
          cases hpk : (p.1 == k2) with
          | true => simp [hpk]
          | false =>
            simp only [hpk, Bool.false_eq_true, if_false]
            exact dictGet_map_other _ _ _ _ hk
      | false =>
        have hany : ((p :: m').any fun q => q.1 == k1) = false := by
          simp only [List.any_cons, hp, Bool.false_or]
          exact ha
        have hins : dictInsert m' k1 v = m' ++ [(k1, v)] := by
          simp only [dictInsert, ha]
          simp
        simp only [dictInsert, hany, Bool.false_eq_true, if_false,
          List.cons_append]
        rw [dictGet_cons, ← hins, ih, dictGet_cons]
        cases hk : (k1 == k2) with
        | true =>
          have hk1 : k1 = k2 := by simpa using hk
          subst hk1
          rw [hp]
          simp
        | false =>
          cases hpk : (p.1 == k2) <;> simp [hpk]

/-- Folding Python dict assignments and then looking up equals folding
"last write wins" over the write list. -/
theorem dictGet_foldl_insert {α β : Type} [DecidableEq α]
    (writes : List (α × β)) :
    ∀ (m : List (α × β)) (k : α),
      dictGet (writes.foldl (fun m kv => dictInsert m kv.1 kv.2) m) k =
        writes.foldl (fun acc kv => if kv.1 == k then some kv.2 else acc)
          (dictGet m k) := by
  induction writes with
  | nil => intro m k; rfl
  | cons kv writes ih =>
    intro m k
    simp only [List.foldl_cons]
    rw [ih, dictGet_dictInsert]

/-- Last occurrence wins: the net effect of repeatedly assigning one
field inside a loop. -/
def lastWins {α : Type} (prev : Option α) (news : List α) : Option α :=
  news.foldl (fun _ x => some x) prev

/-- The attrs-map write a word performs under the data-model rules: an
`=key=value` word writes the value string at the key, a `?` word writes
the boolean-true flag at the whole word; response-kind words, tag words
and plain words write nothing (`none` also stands for the ill-formed
`=`-word on which `parse_response` raises instead). -/
def attrWrite (w : List Char) : Option (List Char × AttrVal) :=
  if isBang w then none
  else if isTag w then none
  else if isEqStart w then
    match eqIndexFrom1 w with
    | none => none
    | some i => some ((w.take i).drop 1, AttrVal.str (w.drop (i + 1)))
  else if isQStart w then some (w, AttrVal.flag)
  else none

/-- A word `parse_response` survives: an `=`-word must have a second `=`
(otherwise `word.index("=", 1)` raises `ValueError`). -/
def wfWord (w : List Char) : Bool :=
  !(isEqStart w) || (eqIndexFrom1 w).isSome

/-- The last write to key `k` performed by the word list. -/
def lastAttrWrite (ws : List (List Char)) (k : List Char) : Option AttrVal :=
  (ws.filterMap attrWrite).foldl
    (fun acc kv => if kv.1 == k then some kv.2 else acc) none

/-- A response-kind word (leading `!`) is never a tag word. -/
theorem isBang_isTag {w : List Char} (h : isBang w = true) :
    isTag w = false := by
  cases w with
  | nil => simp [isBang] at h
  | cons c cs =>
    have hc : c = '!' := by simpa [isBang, List.take] using h
    subst hc
    simp [isTag, List.take]

/-- The `parse_response_go` computed in closed form: the kind is the last
`!`-word, the tag is the last `.tag=` word's parsed value, and the attrs
map is the fold of the words' dict writes. -/
theorem parse_response_go_char (ws : List (List Char)) :
    ∀ r : ParsedResponse, (∀ w ∈ ws, wfWord w = true) →
      parse_response_go r ws = some {
        type := lastWins r.type (ws.filter isBang),
        tag := lastWins r.tag ((ws.filter isTag).map tagValOf),
        attrs := (ws.filterMap attrWrite).foldl
          (fun m kv => dictInsert m kv.1 kv.2) r.attrs } := by
  induction ws with
  | nil => intro r _; rfl
  | cons w ws ih =>
    intro r hwf
    have hwfs : ∀ x ∈ ws, wfWord x = true :=
      fun x hx => hwf x (List.mem_cons_of_mem _ hx)
    cases hb : isBang w with
    | true =>
      have ht : isTag w = false := isBang_isTag hb
      have haw : attrWrite w = none := by simp [attrWrite, hb]
      simp only [parse_response_go, parse_word, hb, if_true]
      rw [ih _ hwfs]
      simp only [List.filter_cons, List.filterMap_cons, hb, ht, haw,
        if_true, Bool.false_eq_true, if_false]
      rfl
    | false =>
      cases ht : isTag w with
      | true =>
        have haw : attrWrite w = none := by simp [attrWrite, hb, ht]
        simp only [parse_response_go, parse_word, hb, ht, if_true,
          Bool.false_eq_true, if_false]
        rw [ih _ hwfs]
        simp only [List.filter_cons, List.filterMap_cons, hb, ht, haw,
          if_true, Bool.false_eq_true, if_false, List.map_cons]
        rfl
      | false =>
        cases he : isEqStart w with
        | true =>
          have hwfw := hwf w (List.mem_cons_self w ws)
          rw [wfWord, he] at hwfw
          simp only [Bool.not_true, Bool.false_or] at hwfw
          obtain ⟨i, hi⟩ := Option.isSome_iff_exists.mp hwfw
          have haw : attrWrite w =
              some ((w.take i).drop 1, AttrVal.str (w.drop (i + 1))) := by
            simp [attrWrite, hb, ht, he, hi]
          simp only [parse_response_go, parse_word, hb, ht, he, if_true,
            Bool.false_eq_true, if_false, hi]
          rw [ih _ hwfs]
          simp only [List.filter_cons, List.filterMap_cons, hb, ht, haw,
            Bool.false_eq_true, if_false]
          rfl
        | false =>
          cases hq : isQStart w with
          | true =>
            have haw : attrWrite w = some (w, AttrVal.flag) := by
              simp [attrWrite, hb, ht, he, hq]
            simp only [parse_response_go, parse_word, hb, ht, he, hq,
              if_true, Bool.false_eq_true, if_false]
            rw [ih _ hwfs]
            simp only [List.filter_cons, List.filterMap_cons, hb, ht, haw,
              Bool.false_eq_true, if_false]
            rfl
          | false =>
            have haw : attrWrite w = none := by
              simp [attrWrite, hb, ht, he, hq]
            simp only [parse_response_go, parse_word, hb, ht, he, hq,
              Bool.false_eq_true, if_false]
            rw [ih _ hwfs]
            simp only [List.filter_cons, List.filterMap_cons, hb, ht, haw,
              Bool.false_eq_true, if_false]

/-- C7.  For every word list (in which an `=`-word is well formed, i.e.
has its second `=`, so the loop does not raise), `parse_response`
classifies per the data-model rules: the response kind is the `!`-word
(when exactly one is present), the tag is absent when no `.tag=` word
occurs and is the parsed integer when the one tag word is `.tag=<int>`,
and the attrs map holds, at every key, the last write performed by the
`=key=value` words (duplicates overwrite) and the `?`-words (recorded as
boolean-true flags at the whole word, not as key/value pairs). -/
theorem C7_parse_response_classification (ws : List (List Char))
    (hwf : ∀ w ∈ ws, wfWord w = true) :
    ∃ r, parse_response ws = some r ∧
      (∀ b, ws.filter isBang = [b] → r.type = some b) ∧
      (ws.filter isTag = [] → r.tag = none) ∧
      (∀ w n, ws.filter isTag = [w] → pyInt (w.drop 5) = some n →
        r.tag = some (TagVal.int n)) ∧
      (∀ k, dictGet r.attrs k = lastAttrWrite ws k) := by
  refine ⟨_, parse_response_go_char ws _ hwf, ?_, ?_, ?_, ?_⟩
  · intro b hb
    show lastWins none (ws.filter isBang) = some b
    rw [hb]
    rfl
  · intro h
    show lastWins none ((ws.filter isTag).map tagValOf) = none
    rw [h]
    rfl
  · intro w n hw hn
    show lastWins none ((ws.filter isTag).map tagValOf) =
      some (TagVal.int n)
    rw [hw]
    simp [lastWins, tagValOf, hn]
  · intro k
    show dictGet ((ws.filterMap attrWrite).foldl
      (fun m kv => dictInsert m kv.1 kv.2) []) k = lastAttrWrite ws k
    rw [dictGet_foldl_insert]
    simp [lastAttrWrite, dictGet]

/-- Witness for C7 on the realistic word list
`["!re", ".tag=7", "=a=1", "=a=2", "?q"]`. -/
theorem C7_parse_response_classification_witness :
    ∃ r, parse_response [['!', 'r', 'e'], ['.', 't', 'a', 'g', '=', '7'],
        ['=', 'a', '=', '1'], ['=', 'a', '=', '2'], ['?', 'q']] = some r ∧
      (∀ b, ([['!', 'r', 'e'], ['.', 't', 'a', 'g', '=', '7'],
        ['=', 'a', '=', '1'], ['=', 'a', '=', '2'],
        ['?', 'q']].filter isBang) = [b] → r.type = some b) ∧
      (([['!', 'r', 'e'], ['.', 't', 'a', 'g', '=', '7'],
        ['=', 'a', '=', '1'], ['=', 'a', '=', '2'],
        ['?', 'q']].filter isTag) = [] → r.tag = none) ∧
      (∀ w n, ([['!', 'r', 'e'], ['.', 't', 'a', 'g', '=', '7'],
        ['=', 'a', '=', '1'], ['=', 'a', '=', '2'],
        ['?', 'q']].filter isTag) = [w] → pyInt (w.drop 5) = some n →
        r.tag = some (TagVal.int n)) ∧
      (∀ k, dictGet r.attrs k =
        lastAttrWrite [['!', 'r', 'e'], ['.', 't', 'a', 'g', '=', '7'],
          ['=', 'a', '=', '1'], ['=', 'a', '=', '2'], ['?', 'q']] k) :=
  C7_parse_response_classification
    [['!', 'r', 'e'], ['.', 't', 'a', 'g', '=', '7'],
      ['=', 'a', '=', '1'], ['=', 'a', '=', '2'], ['?', 'q']] (by decide)

/-!
## MD5 (RFC 1321)

`hashlib.md5` as called by `api_protocol.md5_challenge_response` is the
Python standard library; it is modelled here by the RFC 1321 algorithm on
byte lists, with 32-bit words as `Nat` reduced `% 2^32` (the 32-bit
complement of `x` is `0xFFFFFFFF - x`).
-/

/-- MD5 per-operation shift amounts. -/
def md5_s : List Nat :=
  [7, 12, 17, 22, 7, 12, 17, 22, 7, 12, 17, 22, 7, 12, 17, 22,
   5, 9, 14, 20, 5, 9, 14, 20, 5, 9, 14, 20, 5, 9, 14, 20,
   4, 11, 16, 23, 4, 11, 16, 23, 4, 11, 16, 23, 4, 11, 16, 23,
   6, 10, 15, 21, 6, 10, 15, 21, 6, 10, 15, 21, 6, 10, 15, 21]

/-- MD5 round constants `floor(2^32 * abs(sin(i + 1)))`. -/
def md5_k : List Nat :=
  [0xd76aa478, 0xe8c7b756, 0x242070db, 0xc1bdceee,
  0xf57c0faf, 0x4787c62a, 0xa8304613, 0xfd469501,
  0x698098d8, 0x8b44f7af, 0xffff5bb1, 0x895cd7be,
  0x6b901122, 0xfd987193, 0xa679438e, 0x49b40821,
  0xf61e2562, 0xc040b340, 0x265e5a51, 0xe9b6c7aa,
  0xd62f105d, 0x02441453, 0xd8a1e681, 0xe7d3fbc8,
  0x21e1cde6, 0xc33707d6, 0xf4d50d87, 0x455a14ed,
  0xa9e3e905, 0xfcefa3f8, 0x676f02d9, 0x8d2a4c8a,
  0xfffa3942, 0x8771f681, 0x6d9d6122, 0xfde5380c,
  0xa4beea44, 0x4bdecfa9, 0xf6bb4b60, 0xbebfbc70,
  0x289b7ec6, 0xeaa127fa, 0xd4ef3085, 0x04881d05,
  0xd9d4d039, 0xe6db99e5, 0x1fa27cf8, 0xc4ac5665,
  0xf4292244, 0x432aff97, 0xab9423a7, 0xfc93a039,
  0x655b59c3, 0x8f0ccc92, 0xffeff47d, 0x85845dd1,
  0x6fa87e4f, 0xfe2ce6e0, 0xa3014314, 0x4e0811a1,
  0xf7537e82, 0xbd3af235, 0x2ad7d2bb, 0xeb86d391]

/-- The 32-bit rotate left (`x < 2^32`, `s ≤ 32`). -/
def rotl32 (x s : Nat) : Nat := (x * 2 ^ s) % 2 ^ 32 + x / 2 ^ (32 - s)

/-- The MD5 round function for operation `i`. -/
def md5_f (i b c d : Nat) : Nat :=
  if i < 16 then (b &&& c) ||| ((0xFFFFFFFF - b) &&& d)
  else if i < 32 then (d &&& b) ||| ((0xFFFFFFFF - d) &&& c)
  else if i < 48 then b ^^^ c ^^^ d
  else c ^^^ (b ||| (0xFFFFFFFF - d))

/-- The MD5 message-word index for operation `i`. -/
def md5_g (i : Nat) : Nat :=
  if i < 16 then i
  else if i < 32 then (5 * i + 1) % 16
  else if i < 48 then (3 * i + 5) % 16
  else (7 * i) % 16

/-- One MD5 operation on state `(a, b, c, d)`. -/
def md5_round (M : List Nat) (st : Nat × Nat × Nat × Nat) (i : Nat) :
    Nat × Nat × Nat × Nat :=
  match st with
  | (a, b, c, d) =>
    let f := (md5_f i b c d + a + md5_k.getD i 0 + M.getD (md5_g i) 0) %
      2 ^ 32
    (d, (b + rotl32 f (md5_s.getD i 0)) % 2 ^ 32, b, c)

/-- Four bytes, little endian, as one 32-bit word. -/
def le_word (bytes : List Nat) : Nat :=
  bytes.getD 0 0 + bytes.getD 1 0 * 256 + bytes.getD 2 0 * 65536 +
    bytes.getD 3 0 * 16777216

/-- A 64-byte chunk as sixteen little-endian words. -/
def md5_chunk_words (chunk : List Nat) : List Nat :=
  (List.range 16).map (fun j => le_word ((chunk.drop (4 * j)).take 4))

/-- Process one 64-byte chunk. -/
def md5_process (st : Nat × Nat × Nat × Nat) (chunk : List Nat) :
    Nat × Nat × Nat × Nat :=
  match st with
  | (a0, b0, c0, d0) =>
    match (List.range 64).foldl (md5_round (md5_chunk_words chunk))
        (a0, b0, c0, d0) with
    | (a, b, c, d) =>
      ((a0 + a) % 2 ^ 32, (b0 + b) % 2 ^ 32, (c0 + c) % 2 ^ 32,
       (d0 + d) % 2 ^ 32)

/-- Split into 64-byte chunks (fuel-driven; called with `fuel = l.length`,
which bounds the chunk count). -/
def chunksOf64 : Nat → List Nat → List (List Nat)
  | 0, _ => []
  | _, [] => []
  | fuel + 1, l => l.take 64 :: chunksOf64 fuel (l.drop 64)

/-- MD5 padding: `0x80`, zeros to 56 mod 64, then the bit length as eight
little-endian bytes. -/
def md5_pad (msg : List Nat) : List Nat :=
  msg ++ [0x80] ++ List.replicate ((119 - msg.length % 64) % 64) 0 ++
    [8 * msg.length % 256, 8 * msg.length / 2 ^ 8 % 256,
     8 * msg.length / 2 ^ 16 % 256, 8 * msg.length / 2 ^ 24 % 256,
     8 * msg.length / 2 ^ 32 % 256, 8 * msg.length / 2 ^ 40 % 256,
     8 * msg.length / 2 ^ 48 % 256, 8 * msg.length / 2 ^ 56 % 256]

/-- A 32-bit word as four little-endian bytes. -/
def le4bytes (x : Nat) : List Nat :=
  [x % 256, x / 256 % 256, x / 65536 % 256, x / 16777216 % 256]

/-- The 16-byte MD5 digest of a byte string. -/
def md5_bytes (msg : List Nat) : List Nat :=
  let padded := md5_pad msg
  match (chunksOf64 padded.length padded).foldl md5_process
      (0x67452301, 0xefcdab89, 0x98badcfe, 0x10325476) with
  | (a, b, c, d) => le4bytes a ++ le4bytes b ++ le4bytes c ++ le4bytes d

/-- One lowercase hex digit. -/
def hexDigit (n : Nat) : Char :=
  if n < 10 then Char.ofNat (48 + n) else Char.ofNat (87 + n)

/-- A byte as two lowercase hex digits. -/
def byteHex (b : Nat) : List Char := [hexDigit (b / 16), hexDigit (b % 16)]

/-- What `hashlib`'s `hexdigest()` returns: the digest bytes in lowercase hex. -/
def hexStr : List Nat → List Char
  | [] => []
  | b :: bs => byteHex b ++ hexStr bs

/-- The `hashlib.md5(msg).hexdigest()`. -/
def md5_hex (msg : List Nat) : List Char := hexStr (md5_bytes msg)

/-- One hex digit's value, accepting both cases (as `bytes.fromhex`). -/
def hexVal (c : Char) : Option Nat :=
  if '0' ≤ c ∧ c ≤ '9' then some (c.toNat - 48)
  else if 'a' ≤ c ∧ c ≤ 'f' then some (c.toNat - 87)
  else if 'A' ≤ c ∧ c ≤ 'F' then some (c.toNat - 55)
  else none

/-- Python `bytes.fromhex` on an even-length digit string; `none` models
the `ValueError` on odd length or a non-hex character (the whitespace
Python tolerates between byte pairs is not exercised by challenges and
not modelled). -/
def bytesFromHex : List Char → Option (List Nat)
  | [] => some []
  | c1 :: c2 :: rest =>
    match hexVal c1, hexVal c2, bytesFromHex rest with
    | some hi, some lo, some bs => some ((hi * 16 + lo) :: bs)
    | _, _, _ => none
  | _ => none

/-- UTF-8 encoding of one scalar value (`str.encode("utf-8")`). -/
def utf8EncodeChar (c : Char) : List Nat :=
  let n := c.toNat
  if n < 0x80 then [n]
  else if n < 0x800 then [0xC0 + n / 64, 0x80 + n % 64]
  else if n < 0x10000 then
    [0xE0 + n / 4096, 0x80 + n / 64 % 64, 0x80 + n % 64]
  else
    [0xF0 + n / 262144, 0x80 + n / 4096 % 64, 0x80 + n / 64 % 64,
     0x80 + n % 64]

/-- The `str.encode("utf-8")` on a whole string. -/
def utf8Encode (s : List Char) : List Nat := (s.map utf8EncodeChar).join

/-- The `api_protocol.md5_challenge_response` (lines 127-138):
`bytes.fromhex` on the challenge, then
`MD5(0x00 ‖ utf8(password) ‖ challenge_bytes)` as lowercase hex. -/
def md5_challenge_response (password challenge_hex : List Char) :
    Option (List Char) :=
  (bytesFromHex challenge_hex).map
    (fun cb => md5_hex (0 :: (utf8Encode password ++ cb)))

/-- Decimal digits of a natural number (fuel-driven, `fuel > log10 n`). -/
def natCharsGo : Nat → Nat → List Char
  | 0, _ => []
  | fuel + 1, n =>
    if n < 10 then [Char.ofNat (48 + n)]
    else natCharsGo fuel (n / 10) ++ [Char.ofNat (48 + n % 10)]

/-- Python `str(n)` for a natural number. -/
def natChars (n : Nat) : List Char := natCharsGo (n + 1) n

/-- The second login sentence sent by `RouterAPIClient._login_ros6`
(src/core/router_client.py lines 157-163):
`["/login", "=name=<user>", "=response=00<digest>", ".tag=<tag2>"]`. -/
def login_step2_words (username digest : List Char) (tag : Nat) :
    List (List Char) :=
  [['/', 'l', 'o', 'g', 'i', 'n'],
   ['=', 'n', 'a', 'm', 'e', '='] ++ username,
   ['=', 'r', 'e', 's', 'p', 'o', 'n', 's', 'e', '=', '0', '0'] ++ digest,
   ['.', 't', 'a', 'g', '='] ++ natChars tag]

/-- A lowercase hexadecimal digit. -/
def isLowerHexDigit (c : Char) : Bool :=
  (('0' ≤ c) && (c ≤ '9')) || (('a' ≤ c) && (c ≤ 'f'))

theorem hexDigit_lower {n : Nat} (h : n < 16) :
    isLowerHexDigit (hexDigit n) = true := by
  interval_cases n <;> decide

theorem le4bytes_lt (x : Nat) : ∀ b ∈ le4bytes x, b < 256 := by
  intro b hb
  simp only [le4bytes, List.mem_cons, List.not_mem_nil, or_false] at hb
  rcases hb with h | h | h | h <;> subst h <;> omega

theorem md5_bytes_lt (msg : List Nat) : ∀ x ∈ md5_bytes msg, x < 256 := by
  intro x hx
  unfold md5_bytes at hx
  dsimp only at hx
  rcases hst : (chunksOf64 (md5_pad msg).length (md5_pad msg)).foldl
      md5_process (0x67452301, 0xefcdab89, 0x98badcfe, 0x10325476)
    with ⟨a, b, c, d⟩
  rw [hst] at hx
  simp only [List.mem_append] at hx
  rcases hx with ((h | h) | h) | h <;> exact le4bytes_lt _ x h

/-- Every character of a hex digest of genuine bytes is a lowercase hex
digit. -/
theorem hexStr_lower (bytes : List Nat) (hlt : ∀ b ∈ bytes, b < 256) :
    ∀ c ∈ hexStr bytes, isLowerHexDigit c = true := by
  induction bytes with
  | nil => intro c hc; simp [hexStr] at hc
  | cons b bs ih =>
    intro c hc
    have hb : b < 256 := hlt b (List.mem_cons_self b bs)
    simp only [hexStr, byteHex, List.cons_append, List.nil_append,
      List.mem_cons] at hc
    rcases hc with h | h | h
    · subst h; exact hexDigit_lower (by omega)
    · subst h; exact hexDigit_lower (by omega)
    · exact ih (fun y hy => hlt y (List.mem_cons_of_mem b hy)) c h

set_option maxRecDepth 8000 in
/-- C8.  The challenge-response login digest is the lowercase hex of
`MD5(0x00 ‖ password-bytes ‖ challenge-bytes)`: for every password and
every challenge whose hex decodes to bytes `cb`, the digest is
`md5_hex (0x00 :: utf8(password) ++ cb)` and consists of lowercase hex
digits only; concretely, for password `"pw"` and challenge `"deadbeef"`
(bytes `[0xDE, 0xAD, 0xBE, 0xEF]`) it is
`"e225067eda54932e1984963691f14448"`, matching `hashlib`; and the second
login sentence carries the `=name=<user>` word and the response word
whose value is `"00"` followed by the digest. -/
theorem C8_md5_login_digest :
    (∀ (password challenge_hex : List Char) (cb : List Nat),
      bytesFromHex challenge_hex = some cb →
        md5_challenge_response password challenge_hex =
          some (md5_hex (0 :: (utf8Encode password ++ cb))) ∧
        ∀ c ∈ md5_hex (0 :: (utf8Encode password ++ cb)),
          isLowerHexDigit c = true) ∧
    bytesFromHex ['d', 'e', 'a', 'd', 'b', 'e', 'e', 'f'] =
      some [0xDE, 0xAD, 0xBE, 0xEF] ∧
    md5_challenge_response ['p', 'w']
        ['d', 'e', 'a', 'd', 'b', 'e', 'e', 'f'] =
      some ['e', '2', '2', '5', '0', '6', '7', 'e', 'd', 'a', '5', '4',
        '9', '3', '2', 'e', '1', '9', '8', '4', '9', '6', '3', '6', '9',
        '1', 'f', '1', '4', '4', '4', '8'] ∧
    (∀ (username digest : List Char) (tag : Nat),
      (['=', 'n', 'a', 'm', 'e', '='] ++ username) ∈
        login_step2_words username digest tag ∧
      (['=', 'r', 'e', 's', 'p', 'o', 'n', 's', 'e', '=', '0', '0'] ++
        digest) ∈ login_step2_words username digest tag) := by
  refine ⟨?_, by decide, by decide, ?_⟩
  · intro password challenge_hex cb hcb
    refine ⟨by simp [md5_challenge_response, hcb], ?_⟩
    intro c hc
    exact hexStr_lower _ (md5_bytes_lt _) c hc
  · intro username digest tag
    constructor <;> simp [login_step2_words]

set_option maxRecDepth 8000 in
/-- Witness for C8's quantified part at the concrete password and
challenge of the scenario. -/
theorem C8_md5_login_digest_witness :
    bytesFromHex ['d', 'e', 'a', 'd', 'b', 'e', 'e', 'f'] =
      some [0xDE, 0xAD, 0xBE, 0xEF] ∧
    (md5_challenge_response ['p', 'w']
        ['d', 'e', 'a', 'd', 'b', 'e', 'e', 'f'] =
      some (md5_hex (0 :: (utf8Encode ['p', 'w'] ++
        [0xDE, 0xAD, 0xBE, 0xEF]))) ∧
      ∀ c ∈ md5_hex (0 :: (utf8Encode ['p', 'w'] ++
        [0xDE, 0xAD, 0xBE, 0xEF])), isLowerHexDigit c = true) :=
  ⟨by decide,
    C8_md5_login_digest.1 ['p', 'w'] ['d', 'e', 'a', 'd', 'b', 'e', 'e', 'f']
      [0xDE, 0xAD, 0xBE, 0xEF] (by decide)⟩

/-!
## Engine state: receiver-loop exit (C1), `command` (C5), `stream` (C6)

`router_client.py`'s engine state is modelled as the data its claims
touch: the connection generation `_conn_gen`, the `_connected` flag, and
the pending tag → queue map (a queue being the list of responses put and
not yet consumed).  Responses are the `parse_response` dicts.
-/

/-- The synthetic fatal response the receiver loop pushes on exit
(src/core/router_client.py line 357):
`{"type": "!fatal", "tag": None, "attrs": {"message": "disconnected"}}`. -/
def fatalResponse : ParsedResponse :=
  { type := some ['!', 'f', 'a', 't', 'a', 'l'],
    tag := none,
    attrs := [(['m', 'e', 's', 's', 'a', 'g', 'e'],
      AttrVal.str ['d', 'i', 's', 'c', 'o', 'n', 'n', 'e', 'c', 't',
        'e', 'd'])] }

/-- The Engine connection state touched by the receiver loop's exit
path. -/
structure EngineConnState where
  conn_gen : Nat
  connected : Bool
  pending : List (Nat × List ParsedResponse)
deriving DecidableEq, Repr

/-- The `finally` block of `RouterAPIClient._receiver_loop`
(src/core/router_client.py lines 351-357), run when the loop terminates
for any reason (end-of-stream `break`, fatal transport error,
`CancelledError`): only when the loop's captured generation `gen` still
equals the Engine's current `_conn_gen` does it clear `_connected` and
put one synthetic fatal response into every registered queue. -/
def receiver_loop_exit (gen : Nat) (s : EngineConnState) : EngineConnState :=
  if s.conn_gen = gen then
    { s with
      connected := false,
      pending := s.pending.map (fun p => (p.1, p.2 ++ [fatalResponse])) }
  else s

/-- The state effect of a successful transport establishment in
`connect()` (lines 99-101): set `_connected`, bump `_conn_gen` (the new
loop then captures the bumped value). -/
def connect_bump (s : EngineConnState) : EngineConnState :=
  { s with connected := true, conn_gen := s.conn_gen + 1 }

/-- C1.  When the receiver loop terminates: exactly when its captured
generation still equals the Engine's current connection generation does
it set `connected := false` and append one synthetic `!fatal` response
to every queue still registered in the pending map; a loop whose
generation has been superseded (in particular by any later `connect()`,
which bumps the generation) changes neither the connected flag nor any
pending queue on exit — the state is untouched. -/
theorem C1_receiver_exit_generation_guard (gen : Nat) (s : EngineConnState) :
    (s.conn_gen = gen →
      (receiver_loop_exit gen s).connected = false ∧
      (receiver_loop_exit gen s).pending =
        s.pending.map (fun p => (p.1, p.2 ++ [fatalResponse]))) ∧
    (s.conn_gen ≠ gen → receiver_loop_exit gen s = s) ∧
    (gen = s.conn_gen →
      receiver_loop_exit gen (connect_bump s) = connect_bump s) := by
  refine ⟨fun h => ?_, fun h => ?_, fun h => ?_⟩
  · rw [receiver_loop_exit, if_pos h]
    exact ⟨rfl, rfl⟩
  · rw [receiver_loop_exit, if_neg h]
  · rw [receiver_loop_exit, if_neg (by simp [connect_bump]; omega)]

/-- Witness for C1: a live-generation exit marks disconnected and pushes
the fatal response into the one registered queue; a stale-generation exit
leaves the state untouched. -/
theorem C1_receiver_exit_generation_guard_witness :
    ((receiver_loop_exit 1
        { conn_gen := 1, connected := true,
          pending := [(5, [])] }).connected = false ∧
      (receiver_loop_exit 1
        { conn_gen := 1, connected := true, pending := [(5, [])] }).pending =
        [(5, [])].map (fun p => (p.1, p.2 ++ [fatalResponse]))) ∧
    receiver_loop_exit 1
        { conn_gen := 2, connected := true, pending := [(5, [])] } =
      { conn_gen := 2, connected := true, pending := [(5, [])] } :=
  ⟨(C1_receiver_exit_generation_guard 1
      { conn_gen := 1, connected := true, pending := [(5, [])] }).1 rfl,
    (C1_receiver_exit_generation_guard 1
      { conn_gen := 2, connected := true, pending := [(5, [])] }).2.1
      (by decide)⟩

/-- Python `dict.pop(k, None)`: remove the key's entry if present (keys
are unique in a dict, so filtering is the same removal). -/
def dictPop {α β : Type} [DecidableEq α] (m : List (α × β)) (k : α) :
    List (α × β) :=
  m.filter (fun p => !(p.1 == k))

theorem dictGet_dictPop_self {α β : Type} [DecidableEq α]
    (m : List (α × β)) (k : α) : dictGet (dictPop m k) k = none := by
  induction m with
  | nil => rfl
  | cons p m' ih =>
    simp only [dictPop, List.filter_cons]
    cases hp : (p.1 == k) with
    | true => simpa [dictPop] using ih
    | false =>
      simp only [hp, Bool.not_false, if_pos]
      rw [dictGet_cons, hp]
      simpa [dictPop] using ih

theorem dictGet_dictPop_other {α β : Type} [DecidableEq α]
    (m : List (α × β)) (k t : α) (hne : (t == k) = false) :
    dictGet (dictPop m k) t = dictGet m t := by
  induction m with
  | nil => rfl
  | cons p m' ih =>
    simp only [dictPop, List.filter_cons]
    cases hp : (p.1 == k) with
    | true =>
      simp only [hp, Bool.not_true, Bool.false_eq_true, if_false]
      rw [dictGet_cons]
      have hpt : (p.1 == t) = false := by
        have h1 : p.1 = k := by simpa using hp
        subst h1
        cases ht : (p.1 == t) with
        | true =>
          have : p.1 = t := by simpa using ht
          subst this
          simp at hne
        | false => rfl
      rw [hpt]
      simpa [dictPop] using ih
    | false =>
      simp only [hp, Bool.not_false, if_pos]
      rw [dictGet_cons, dictGet_cons]
      cases hpt : (p.1 == t) <;> simp [hpt] <;> simpa [dictPop] using ih

/-- The `"!re"`. -/
def reWord : List Char := ['!', 'r', 'e']
/-- The `"!done"`. -/
def doneWord : List Char := ['!', 'd', 'o', 'n', 'e']
/-- The `"!trap"`. -/
def trapWord : List Char := ['!', 't', 'r', 'a', 'p']
/-- The `"!fatal"`. -/
def fatalWord : List Char := ['!', 'f', 'a', 't', 'a', 'l']

/-- The three exits of `RouterAPIClient.command`'s response loop
(src/core/router_client.py lines 215-226): `!done` completes with the
accumulated `!re` rows, `!trap`/`!fatal` raises `APIError`, and an
exhausted queue stands for the `asyncio.wait_for` per-read timeout
(`TimeoutError`). -/
inductive CmdExit where
  | success (rows : List (List (List Char × AttrVal)))
  | apiError
  | timeout
deriving DecidableEq, Repr

/-- The `while True` loop of `command` over the responses delivered to
this tag's queue: `!re` accumulates, `!done` breaks, `!trap`/`!fatal`
raises, anything else is ignored and the loop waits again. -/
def command_loop (acc : List (List (List Char × AttrVal))) :
    List ParsedResponse → CmdExit
  | [] => .timeout
  | r :: rest =>
    if r.type = some reWord then command_loop (acc ++ [r.attrs]) rest
    else if r.type = some doneWord then .success acc
    else if r.type = some trapWord ∨ r.type = some fatalWord then .apiError
    else command_loop acc rest

/-- The `RouterAPIClient.command` (lines 198-229) as a transformer of the
pending map: register a fresh queue under the tag
(`self._pending[tag] = q`), run the response loop to one of its three
exits, and — the `finally` — pop the tag
(`self._pending.pop(tag, None)`). -/
def command_run (pending : List (Nat × Unit)) (tag : Nat)
    (arrivals : List ParsedResponse) : CmdExit × List (Nat × Unit) :=
  let p1 := dictInsert pending tag ()
  (command_loop [] arrivals, dictPop p1 tag)

/-- C5.  `command` removes its tag's entry from the pending map on every
exit path: whatever responses arrive (a `!done` completing it, a
`!trap`/`!fatal` making it raise, or no terminating response — the
per-read timeout), afterwards the tag is absent from the pending map,
every other tag's entry is untouched, and the exit is always one of the
three kinds. -/
theorem C5_command_releases_tag (pending : List (Nat × Unit)) (tag : Nat)
    (arrivals : List ParsedResponse) :
    dictGet (command_run pending tag arrivals).2 tag = none ∧
    (∀ t, (t == tag) = false →
      dictGet (command_run pending tag arrivals).2 t = dictGet pending t) ∧
    ((∃ rows, (command_run pending tag arrivals).1 = .success rows) ∨
      (command_run pending tag arrivals).1 = .apiError ∨
      (command_run pending tag arrivals).1 = .timeout) := by
  refine ⟨dictGet_dictPop_self _ _, fun t ht => ?_, ?_⟩
  · show dictGet (dictPop (dictInsert pending tag ()) tag) t = dictGet pending t
    rw [dictGet_dictPop_other _ _ _ ht, dictGet_dictInsert]
    cases htt : (tag == t) with
    | true =>
      have : tag = t := by simpa using htt
      subst this
      simp at ht
    | false => simp
  · show (∃ rows, command_loop [] arrivals = .success rows) ∨
      command_loop [] arrivals = .apiError ∨
      command_loop [] arrivals = .timeout
    cases h : command_loop [] arrivals with
    | success rows => exact Or.inl ⟨rows, rfl⟩
    | apiError => exact Or.inr (Or.inl rfl)
    | timeout => exact Or.inr (Or.inr rfl)

/-- Witness for C5: a command on tag 7 whose queue delivers one `!re`
then `!done`, against a pending map already holding tag 3; afterwards
tag 7 is absent and tag 3 untouched. -/
theorem C5_command_releases_tag_witness :
    dictGet (command_run [(3, ())] 7
      [{ type := some reWord, tag := some (TagVal.int 7), attrs := [] },
       { type := some doneWord, tag := some (TagVal.int 7),
         attrs := [] }]).2 7 = none ∧
    dictGet (command_run [(3, ())] 7
      [{ type := some reWord, tag := some (TagVal.int 7), attrs := [] },
       { type := some doneWord, tag := some (TagVal.int 7),
         attrs := [] }]).2 3 = dictGet [(3, ())] 3 :=
  ⟨(C5_command_releases_tag [(3, ())] 7 _).1,
    (C5_command_releases_tag [(3, ())] 7 _).2.1 3 (by decide)⟩

/-- Observable events of one `stream` call: a row yielded to the caller,
a sentence handed to `_send_raw` (with whether the send succeeded — a
failed send delivers nothing), and the removal of a tag from the pending
map. -/
inductive StreamEv where
  | yieldRow (attrs : List (List Char × AttrVal))
  | sendAttempt (words : List (List Char)) (delivered : Bool)
  | removeTag (t : Nat)
deriving DecidableEq, Repr

/-- The `RouterAPIClient._build_words` (src/core/router_client.py
lines 284-301): the path word, one `=k=v` word per parameter (empty or
`None` value encoded as `=k=`), the raw query words, then `.tag=<tag>`. -/
def build_words (path : List Char)
    (params : List (List Char × Option (List Char)))
    (queries : List (List Char)) (tag : Nat) : List (List Char) :=
  path ::
    (params.map (fun kv =>
      match kv.2 with
      | none => ['='] ++ kv.1 ++ ['=']
      | some v =>
        if v = [] then ['='] ++ kv.1 ++ ['=']
        else ['='] ++ kv.1 ++ ['='] ++ v)) ++
    queries ++ [['.', 't', 'a', 'g', '='] ++ natChars tag]

/-- The `/cancel` sentence words sent by `stream`'s `finally`
(lines 263-268): `["/cancel", "=tag=<tag>", ".tag=<cancel_tag>"]`. -/
def cancel_words (tag cancel_tag : Nat) : List (List Char) :=
  [['/', 'c', 'a', 'n', 'c', 'e', 'l'],
   ['=', 't', 'a', 'g', '='] ++ natChars tag,
   ['.', 't', 'a', 'g', '='] ++ natChars cancel_tag]

/-- The response loop of `stream` (lines 251-259): each `!re` is yielded
to the caller; `!done` breaks; `!trap`/`!fatal` raises `APIError` (no
further yields); exhaustion stands for the caller ceasing to consume or
the 60-second idle timeout. -/
def stream_loop : List ParsedResponse → List StreamEv
  | [] => []
  | r :: rest =>
    if r.type = some reWord then .yieldRow r.attrs :: stream_loop rest
    else if r.type = some doneWord then []
    else if r.type = some trapWord ∨ r.type = some fatalWord then []
    else stream_loop rest

/-- The `stream`'s `finally` (lines 260-271): allocate a cancel tag, attempt
exactly one `/cancel` send — `send_ok` records whether `_send_raw`
succeeded; its failure is swallowed by the bare `except` — then pop the
stream's tag from the pending map. -/
def stream_finally (tag cancel_tag : Nat) (send_ok : Bool) : List StreamEv :=
  [.sendAttempt (cancel_words tag cancel_tag) send_ok, .removeTag tag]

/-- The `RouterAPIClient.stream` (lines 231-271) as the event trace of one
call plus the final pending map: register the tag, send the command
sentence (if that send raises, `cmd_send_ok = false`, the loop never
runs and control goes straight to the `finally`), yield rows until the
stream ends for any reason, then run the `finally`.  The call never
raises out of the `finally` itself, whatever `cancel_send_ok` is. -/
def stream_run (pending : List (Nat × Unit)) (path : List Char)
    (params : List (List Char × Option (List Char)))
    (queries : List (List Char)) (tag cancel_tag : Nat)
    (arrivals : List ParsedResponse) (cmd_send_ok cancel_send_ok : Bool) :
    List StreamEv × List (Nat × Unit) :=
  let p1 := dictInsert pending tag ()
  (StreamEv.sendAttempt (build_words path params queries tag) cmd_send_ok ::
    ((if cmd_send_ok then stream_loop arrivals else []) ++
      stream_finally tag cancel_tag cancel_send_ok),
   dictPop p1 tag)

/-- A sent sentence whose first word is `/cancel`. -/
def isCancelSend : StreamEv → Bool
  | .sendAttempt ws _ => ws.head? == some ['/', 'c', 'a', 'n', 'c', 'e', 'l']
  | _ => false

/-- The stream response loop only yields rows. -/
theorem stream_loop_yields (arrivals : List ParsedResponse) :
    ∀ e ∈ stream_loop arrivals, ∃ attrs, e = .yieldRow attrs := by
  induction arrivals with
  | nil => intro e he; simp [stream_loop] at he
  | cons r rest ih =>
    intro e he
    unfold stream_loop at he
    split_ifs at he with h1 h2 h3
    · rcases List.mem_cons.mp he with h | h
      · exact ⟨r.attrs, h⟩
      · exact ih e h
    · simp at he
    · simp at he
    · exact ih e he

/-- C6.  Whatever ends a stream call — the caller ceasing to consume, a
`!done`, an error-kind response, or even the initial send failing — the
call's trace is: the command sentence send, then only yielded rows, then
exactly one `/cancel` sentence referencing the stream's original tag
(sent best-effort: the trace is the same whether or not that send
succeeds, so an already-failed connection does not make the call raise),
then the removal of the tag from the pending map; nothing is yielded
after the cancel, afterwards the tag is absent from the pending map, and
every other tag's entry is untouched. -/
theorem C6_stream_cancel_once (pending : List (Nat × Unit))
    (path : List Char) (params : List (List Char × Option (List Char)))
    (queries : List (List Char)) (tag cancel_tag : Nat)
    (arrivals : List ParsedResponse) (cmd_send_ok cancel_send_ok : Bool)
    (hpath : path ≠ ['/', 'c', 'a', 'n', 'c', 'e', 'l']) :
    ∃ ys,
      (stream_run pending path params queries tag cancel_tag arrivals
          cmd_send_ok cancel_send_ok).1 =
        StreamEv.sendAttempt (build_words path params queries tag)
            cmd_send_ok ::
          (ys ++ [StreamEv.sendAttempt (cancel_words tag cancel_tag)
              cancel_send_ok,
            StreamEv.removeTag tag]) ∧
      (∀ e ∈ ys, ∃ attrs, e = StreamEv.yieldRow attrs) ∧
      (stream_run pending path params queries tag cancel_tag arrivals
          cmd_send_ok cancel_send_ok).1.filter isCancelSend =
        [StreamEv.sendAttempt (cancel_words tag cancel_tag)
          cancel_send_ok] ∧
      dictGet (stream_run pending path params queries tag cancel_tag
        arrivals cmd_send_ok cancel_send_ok).2 tag = none ∧
      (∀ t, (t == tag) = false →
        dictGet (stream_run pending path params queries tag cancel_tag
          arrivals cmd_send_ok cancel_send_ok).2 t = dictGet pending t) := by
  refine ⟨if cmd_send_ok then stream_loop arrivals else [], rfl, ?_, ?_,
    dictGet_dictPop_self _ _, fun t ht => ?_⟩
  · intro e he
    cases cmd_send_ok with
    | true => exact stream_loop_yields arrivals e (by simpa using he)
    | false => simp at he
  · show (StreamEv.sendAttempt (build_words path params queries tag)
        cmd_send_ok ::
      ((if cmd_send_ok then stream_loop arrivals else []) ++
        stream_finally tag cancel_tag cancel_send_ok)).filter
          isCancelSend = _
    have hhead : isCancelSend (StreamEv.sendAttempt
        (build_words path params queries tag) cmd_send_ok) = false := by
      simp [isCancelSend, build_words, hpath]
    have hys : (if cmd_send_ok then stream_loop arrivals else
        []).filter isCancelSend = [] := by
      rw [List.filter_eq_nil]
      intro e he
      cases cmd_send_ok with
      | true =>
        obtain ⟨attrs, rfl⟩ :=
          stream_loop_yields arrivals e (by simpa using he)
        simp [isCancelSend]
      | false => simp at he
    rw [List.filter_cons, hhead]
    simp only [Bool.false_eq_true, if_false]
    rw [List.filter_append, hys, List.nil_append]
    rfl
  · show dictGet (dictPop (dictInsert pending tag ()) tag) t =
      dictGet pending t
    rw [dictGet_dictPop_other _ _ _ ht, dictGet_dictInsert]
    cases htt : (tag == t) with
    | true =>
      have : tag = t := by simpa using htt
      subst this
      simp at ht
    | false => simp

/-- Witness for C6: a stream of `/log/print` on tag 4 (cancel tag 5)
that yields one row and then sees `!done`, over a pending map already
holding tag 9, with the cancel send failing (connection already gone). -/
theorem C6_stream_cancel_once_witness :
    ∃ ys,
      (stream_run [(9, ())] ['/', 'l', 'o', 'g'] [] [] 4 5
          [{ type := some reWord, tag := some (TagVal.int 4), attrs := [] },
           { type := some doneWord, tag := some (TagVal.int 4),
             attrs := [] }] true false).1 =
        StreamEv.sendAttempt (build_words ['/', 'l', 'o', 'g'] [] [] 4)
            true ::
          (ys ++ [StreamEv.sendAttempt (cancel_words 4 5) false,
            StreamEv.removeTag 4]) ∧
      (∀ e ∈ ys, ∃ attrs, e = StreamEv.yieldRow attrs) ∧
      (stream_run [(9, ())] ['/', 'l', 'o', 'g'] [] [] 4 5
          [{ type := some reWord, tag := some (TagVal.int 4), attrs := [] },
           { type := some doneWord, tag := some (TagVal.int 4),
             attrs := [] }] true false).1.filter isCancelSend =
        [StreamEv.sendAttempt (cancel_words 4 5) false] ∧
      dictGet (stream_run [(9, ())] ['/', 'l', 'o', 'g'] [] [] 4 5
          [{ type := some reWord, tag := some (TagVal.int 4), attrs := [] },
           { type := some doneWord, tag := some (TagVal.int 4),
             attrs := [] }] true false).2 4 = none ∧
      (∀ t, (t == 4) = false →
        dictGet (stream_run [(9, ())] ['/', 'l', 'o', 'g'] [] [] 4 5
            [{ type := some reWord, tag := some (TagVal.int 4),
               attrs := [] },
             { type := some doneWord, tag := some (TagVal.int 4),
               attrs := [] }] true false).2 t = dictGet [(9, ())] t) :=
  C6_stream_cancel_once [(9, ())] ['/', 'l', 'o', 'g'] [] [] 4 5
    [{ type := some reWord, tag := some (TagVal.int 4), attrs := [] },
     { type := some doneWord, tag := some (TagVal.int 4), attrs := [] }]
    true false (by decide)

/-!
## Lifecycle manager: `reconnect_all` (C9) and `add_router` (C10)
-/

/-- A live engine handle as the manager sees it: `reconnect_all` reads
only its `connected` property. -/
structure Router9 where
  connected : Bool
deriving DecidableEq, Repr

/-- One `RouterEntry` (src/core/router_manager.py lines 30-53), reduced
to the fields `reconnect_all` / `_reconnect_one` read and write. -/
structure Entry9 where
  router : Option Router9
  detected_version : Nat
deriving DecidableEq, Repr

/-- The selection test of `reconnect_all` (line 271):
`not entry.router or not entry.router.connected`. -/
def needs_reconnect (e : Entry9) : Bool :=
  match e.router with
  | none => true
  | some r => !r.connected

/-- The outcome of one `_create_and_connect` attempt, carrying the
wall-clock duration the attempt takes: success returns the new engine
and detected version, `failure` is the `(None, 0)` return, `exn` a
raised exception. -/
inductive AttemptOutcome where
  | success (r : Router9) (ver : Nat) (dur : Nat)
  | failure (dur : Nat)
  | exn (dur : Nat)
deriving DecidableEq, Repr

/-- The wall-clock duration of one attempt. -/
def attempt_duration : AttemptOutcome → Nat
  | .success _ _ d => d
  | .failure d => d
  | .exn d => d

/-- The `RouterManager._reconnect_one` (lines 277-288): on success the
entry's engine handle is replaced wholesale and the version recorded; a
failed attempt, or an exception (caught by `_reconnect_one`'s own
`try/except` — and `gather(*, return_exceptions=True)` would contain it
anyway), leaves the entry unchanged. -/
def reconnect_one (e : Entry9) : AttemptOutcome → Entry9
  | .success r v _ => { e with router := some r, detected_version := v }
  | .failure _ => e
  | .exn _ => e

/-- The `RouterManager.reconnect_all` (lines 263-275): one `_reconnect_one`
task per entry whose engine is absent or disconnected, all run under one
`asyncio.gather`.  `oracle i` is the attempt outcome for the entry at
index `i` (entries here stand for the manager's `(uid, alias)` entries
across every owner, in `iter_all_entries` order); each selected entry is
updated by its own attempt only, every other entry is untouched. -/
def reconnect_all_go (oracle : Nat → AttemptOutcome) :
    Nat → List Entry9 → List Entry9
  | _, [] => []
  | i, e :: es =>
    (if needs_reconnect e then reconnect_one e (oracle i) else e) ::
      reconnect_all_go oracle (i + 1) es

/-- The `reconnect_all`'s effect on the entry list. -/
def reconnect_all_run (entries : List Entry9)
    (oracle : Nat → AttemptOutcome) : List Entry9 :=
  reconnect_all_go oracle 0 entries

/-- The durations of the attempts `reconnect_all` spawns (one per down
entry). -/
def reconnect_durations (oracle : Nat → AttemptOutcome) :
    Nat → List Entry9 → List Nat
  | _, [] => []
  | i, e :: es =>
    if needs_reconnect e then
      attempt_duration (oracle i) :: reconnect_durations oracle (i + 1) es
    else
      reconnect_durations oracle (i + 1) es

/-- Modelled semantics of `asyncio.gather`: the tasks run concurrently,
so the wall-clock duration of `reconnect_all` is the maximum of its
attempts' durations (zero when nothing is down), not their sum. -/
def reconnect_all_duration (entries : List Entry9)
    (oracle : Nat → AttemptOutcome) : Nat :=
  (reconnect_durations oracle 0 entries).foldr max 0

theorem foldr_max_le (l : List Nat) :
    ∀ bound, (∀ d ∈ l, d ≤ bound) → l.foldr max 0 ≤ bound := by
  induction l with
  | nil => intro b _; simp
  | cons x xs ih =>
    intro b h
    simp only [List.foldr_cons]
    exact Nat.max_le.mpr ⟨h x (List.mem_cons_self x xs),
      ih b (fun d hd => h d (List.mem_cons_of_mem x hd))⟩

/-- Pointwise description of `reconnect_all_go`. -/
theorem reconnect_all_go_get (oracle : Nat → AttemptOutcome)
    (es : List Entry9) :
    ∀ (base i : Nat) (e : Entry9), es.get? i = some e →
      (reconnect_all_go oracle base es).get? i =
        some (if needs_reconnect e then reconnect_one e (oracle (base + i))
          else e) := by
  induction es with
  | nil => intro base i e h; simp at h
  | cons a es ih =>
    intro base i e h
    cases i with
    | zero =>
      simp only [List.get?_cons_zero, Option.some.injEq] at h
      subst h
      simp [reconnect_all_go]
    | succ j =>
      simp only [List.get?_cons_succ] at h
      have := ih (base + 1) j e h
      simp only [reconnect_all_go, List.get?_cons_succ]
      rw [this]
      have harith : base + 1 + j = base + (j + 1) := by omega
      rw [harith]

/-- C9.  `reconnect_all` spawns one attempt for exactly the entries
whose engine is absent or disconnected: the resulting list is pointwise
`reconnect_one e (oracle i)` for the down entries and `e` untouched for
the rest; an entry's result depends only on its own attempt outcome, so
one attempt's exception cannot abort or change another entry's
reconnection; and the wall-clock duration under the concurrent
`asyncio.gather` model is bounded by the slowest single attempt (the
maximum of the spawned attempts' durations, not their sum). -/
theorem C9_reconnect_all_concurrent (entries : List Entry9)
    (oracle : Nat → AttemptOutcome) :
    (∀ (i : Nat) (e : Entry9), entries.get? i = some e →
      (reconnect_all_run entries oracle).get? i =
        some (if needs_reconnect e then reconnect_one e (oracle i)
          else e)) ∧
    (∀ (oracle2 : Nat → AttemptOutcome) (i : Nat) (e : Entry9),
      entries.get? i = some e → oracle2 i = oracle i →
      (reconnect_all_run entries oracle2).get? i =
        (reconnect_all_run entries oracle).get? i) ∧
    (∀ bound, (∀ d ∈ reconnect_durations oracle 0 entries, d ≤ bound) →
      reconnect_all_duration entries oracle ≤ bound) := by
  refine ⟨fun i e h => ?_, fun oracle2 i e h ho => ?_, fun bound h => ?_⟩
  · have := reconnect_all_go_get oracle entries 0 i e h
    simpa using this
  · have h1 := reconnect_all_go_get oracle entries 0 i e h
    have h2 := reconnect_all_go_get oracle2 entries 0 i e h
    show (reconnect_all_go oracle2 0 entries).get? i =
      (reconnect_all_go oracle 0 entries).get? i
    rw [h1, h2]
    simp only [Nat.zero_add]
    rw [ho]
  · exact foldr_max_le _ bound h

/-- Witness for C9, the spec's concrete scenario: five simultaneously
down endpoints, each attempt taking 10 time units — total wall time is
10 (the maximum), not the sequential 50 (the sum). -/
theorem C9_reconnect_all_concurrent_witness :
    reconnect_all_duration (List.replicate 5 (⟨none, 0⟩ : Entry9))
      (fun _ => .failure 10) = 10 ∧
    (reconnect_durations (fun _ => AttemptOutcome.failure 10) 0
      (List.replicate 5 (⟨none, 0⟩ : Entry9))).foldr (· + ·) 0 = 50 ∧
    reconnect_all_duration (List.replicate 5 (⟨none, 0⟩ : Entry9))
      (fun _ => .failure 10) ≤ 10 ∧
    (reconnect_all_run (List.replicate 5 (⟨none, 0⟩ : Entry9))
        (fun _ => .failure 10)).get? 0 =
      some (if needs_reconnect (⟨none, 0⟩ : Entry9) then
        reconnect_one (⟨none, 0⟩ : Entry9) (AttemptOutcome.failure 10)
        else (⟨none, 0⟩ : Entry9)) :=
  ⟨by decide, by decide,
    (C9_reconnect_all_concurrent (List.replicate 5 (⟨none, 0⟩ : Entry9))
      (fun _ => .failure 10)).2.2 10 (by decide),
    (C9_reconnect_all_concurrent (List.replicate 5 (⟨none, 0⟩ : Entry9))
      (fun _ => .failure 10)).1 0 (⟨none, 0⟩ : Entry9) (by decide)⟩

/-- Updating the value stored under key `k` in place (an operation that
touches no other key and no key order). -/
theorem dictGet_map_update {α β : Type} [DecidableEq α]
    (m : List (α × β)) (k : α) (f : β → β) (k2 : α) :
    dictGet (m.map (fun p => if p.1 == k then (p.1, f p.2) else p)) k2 =
      if k2 == k then (dictGet m k).map f else dictGet m k2 := by
  induction m with
  | nil => cases hk : (k2 == k) <;> simp [dictGet]
  | cons p m' ih =>
    simp only [List.map_cons]
    cases hp : (p.1 == k) with
    | true =>
      have hp1 : p.1 = k := by simpa using hp
      cases hk : (k2 == k) with
      | true =>
        have hk1 : k2 = k := by simpa using hk
        subst hk1
        simp [dictGet_cons, hp, hp1, ih, hk]
      | false =>
        have hpk : (p.1 == k2) = false := by
          cases h2 : (p.1 == k2) with
          | true =>
            have h3 : p.1 = k2 := by simpa using h2
            rw [hp1] at h3
            subst h3
            simp at hk
          | false => rfl
        simp [dictGet_cons, hp, hpk, hk]
        simpa [hk] using ih
    | false =>
      cases hk : (k2 == k) with
      | true =>
        have hk1 : k2 = k := by simpa using hk
        subst hk1
        simp [dictGet_cons, hp, hk]
        simpa [hk] using ih
      | false =>
        cases hpk : (p.1 == k2) with
        | true => simp [dictGet_cons, hp, hpk, ih, hk]
        | false =>
          simp [dictGet_cons, hp, hpk, hk]
          simpa [hk] using ih

/-- A successful lookup implies the key is present. -/
theorem dictGet_any {α β : Type} [DecidableEq α] {m : List (α × β)}
    {k : α} {v : β} (h : dictGet m k = some v) :
    m.any (fun p => p.1 == k) = true := by
  induction m with
  | nil => simp [dictGet] at h
  | cons p m' ih =>
    rw [dictGet_cons] at h
    cases hp : (p.1 == k) with
    | true => simp [List.any_cons, hp]
    | false =>
      rw [hp] at h
      simp only [Bool.false_eq_true, if_false] at h
      simp [List.any_cons, ih h]

/-- One stored router entry (src/core/router_manager.py lines 30-53),
reduced to an identifying host, the live engine handle (an engine id, so
closing can be observed), and the detected version. -/
structure Entry10 where
  host : List Char
  router : Option Nat
  detected_version : Nat
deriving DecidableEq, Repr

/-- The manager state `add_router` touches: `_entries`
(user id → alias → entry), `_active` (user id → active alias — Python
may store `None` there after the last remove), and the ids of engines on
which `close()` has been called (`add_router`'s success path must add
none). -/
structure MgrState where
  entries : List (Nat × List (List Char × Entry10))
  active : List (Nat × Option (List Char))
  closed_engines : List Nat
deriving DecidableEq, Repr

/-- The `self._entries.get(user_id, {})`. -/
def user_entries (st : MgrState) (uid : Nat) :
    List (List Char × Entry10) :=
  (dictGet st.entries uid).getD []

/-- The success path of `RouterManager.add_router`
(src/core/router_manager.py lines 155-167) after `_create_and_connect`
returned a live router: create the user's inner dict if absent
(`if user_id not in self._entries`), store the new entry wholesale under
the alias (`self._entries[user_id][alias] = entry` — a plain dict
assignment, the old entry is dropped, its engine not closed), and set
the user's active alias only when `user_id` is not yet a key of
`_active` (`if user_id not in self._active`).  `_save_registry` does not
touch this state. -/
def add_router_success (st : MgrState) (uid : Nat) (aliasName : List Char)
    (entry : Entry10) : MgrState :=
  let entries1 :=
    if st.entries.any (fun p => p.1 == uid) then st.entries
    else st.entries ++ [(uid, [])]
  let entries2 := entries1.map (fun p =>
    if p.1 == uid then (p.1, dictInsert p.2 aliasName entry) else p)
  let active1 :=
    if st.active.any (fun p => p.1 == uid) then st.active
    else st.active ++ [(uid, some aliasName)]
  { entries := entries2, active := active1,
    closed_engines := st.closed_engines }

/-- C10.  When `add_router` succeeds for a `(user_id, alias)` whose
alias already has an entry: the old entry is replaced wholesale by the
new one, no engine is closed (in particular not the old entry's live
engine), the other aliases of this user and the entries of every other
user are untouched, and the user's active-alias pointer is left
unchanged whenever the user has an active entry — it is set (to the new
alias) only when the user had no active-alias entry at all. -/
theorem C10_add_router_replaces_wholesale (st : MgrState) (uid : Nat)
    (aliasName : List Char) (newE oldE : Entry10)
    (halias : dictGet (user_entries st uid) aliasName = some oldE) :
    dictGet (user_entries (add_router_success st uid aliasName newE) uid)
      aliasName = some newE ∧
    (∀ a, (aliasName == a) = false →
      dictGet (user_entries (add_router_success st uid aliasName newE) uid) a =
        dictGet (user_entries st uid) a) ∧
    (∀ u, (u == uid) = false →
      dictGet (add_router_success st uid aliasName newE).entries u =
        dictGet st.entries u) ∧
    (add_router_success st uid aliasName newE).closed_engines =
      st.closed_engines ∧
    (st.active.any (fun p => p.1 == uid) = true →
      (add_router_success st uid aliasName newE).active = st.active) ∧
    (st.active.any (fun p => p.1 == uid) = false →
      (add_router_success st uid aliasName newE).active =
        st.active ++ [(uid, some aliasName)]) := by
  obtain ⟨inner, hdg⟩ : ∃ inner, dictGet st.entries uid = some inner := by
    cases hdg : dictGet st.entries uid with
    | none =>
      rw [user_entries, hdg] at halias
      simp [dictGet] at halias
    | some inner => exact ⟨inner, rfl⟩
  have hany : st.entries.any (fun p => p.1 == uid) = true :=
    dictGet_any hdg
  have hentries : (add_router_success st uid aliasName newE).entries =
      st.entries.map (fun p =>
        if p.1 == uid then (p.1, dictInsert p.2 aliasName newE) else p) := by
    simp only [add_router_success, hany, if_true]
  have hue : user_entries (add_router_success st uid aliasName newE) uid =
      dictInsert inner aliasName newE := by
    rw [user_entries, hentries, dictGet_map_update st.entries uid
      (fun d => dictInsert d aliasName newE) uid]
    simp [hdg]
  refine ⟨?_, fun a ha => ?_, fun u hu => ?_, rfl, fun h => ?_, fun h => ?_⟩
  · rw [hue, dictGet_dictInsert]
    simp
  · have ha2 : aliasName ≠ a := by simpa using ha
    rw [hue, dictGet_dictInsert]
    simp [ha2, user_entries, hdg]
  · have hu2 : u ≠ uid := by simpa using hu
    rw [hentries, dictGet_map_update st.entries uid
      (fun d => dictInsert d aliasName newE) u]
    simp [hu2]
  · simp only [add_router_success, h, if_true]
  · simp only [add_router_success, h, Bool.false_eq_true, if_false]

/-- The manager state of the C10 witness: user 1 owns alias `"r"` with
live engine 41, user 2 owns alias `"s"` with engine 7, user 1's active
alias is `"r"`, nothing closed. -/
def c10_state : MgrState :=
  { entries :=
      [(1, [(['r'], ⟨['h'], some 41, 6⟩)]),
       (2, [(['s'], ⟨['g'], some 7, 7⟩)])],
    active := [(1, some ['r'])],
    closed_engines := [] }

/-- The replacing entry of the C10 witness: same host, fresh engine 42. -/
def c10_newEntry : Entry10 := ⟨['h'], some 42, 7⟩

/-- Witness for C10: user 1 re-adds alias `"r"` (old entry holds live
engine 41, the new one engine 42) while an entry of user 2 and the
active map `[(1, some "r")]` are in place; afterwards the alias maps to
the new entry, no engine was closed, user 2's entries and the active
pointer are untouched. -/
theorem C10_add_router_replaces_wholesale_witness :
    dictGet (user_entries (add_router_success c10_state 1 ['r']
      c10_newEntry) 1) ['r'] = some c10_newEntry ∧
    (add_router_success c10_state 1 ['r'] c10_newEntry).closed_engines =
      [] ∧
    dictGet (add_router_success c10_state 1 ['r'] c10_newEntry).entries 2 =
      dictGet c10_state.entries 2 ∧
    (add_router_success c10_state 1 ['r'] c10_newEntry).active =
      c10_state.active := by
  have h := C10_add_router_replaces_wholesale c10_state 1 ['r']
    c10_newEntry ⟨['h'], some 41, 6⟩ (by decide)
  exact ⟨h.1, h.2.2.2.1, h.2.2.1 2 (by decide), h.2.2.2.2.1 (by decide)⟩
